import Mathlib

/-!
Shallow embedding of two Selenium scraping scripts:
`sebi_fpi_scrape_to_xlsx.py` (indicator-driven pagination over SEBI FPI cards)
and `aria_members_final.py` (click-driven pagination over ARIA member cards).
Pure string processing, pagination arithmetic, card extraction, record
normalization, deduplication and the crawl loops are translated directly from
the Python source; the live browser session is modelled by explicit environment
records describing what each rendered view contains.
-/

set_option maxRecDepth 4000
set_option autoImplicit false

namespace Scrape

/-! ### String helpers shared by both scripts -/

/-- Whitespace characters treated like Python's `\s` / `str.strip` on the
data seen by these scripts: space, tab, newline, carriage return, vertical
tab, form feed and the non-breaking space. -/
def pySpace (c : Char) : Bool :=
  c = ' ' || c = '\t' || c = '\n' || c = '\r' ||
    c = Char.ofNat 11 || c = Char.ofNat 12 || c = Char.ofNat 160

/-- `str.strip()` on a character list. -/
def stripList (l : List Char) : List Char :=
  ((l.dropWhile pySpace).reverse.dropWhile pySpace).reverse

/-- `str.strip()`. -/
def pyStrip (s : String) : String :=
  String.mk (stripList s.toList)

/-- `str.lower()` (ASCII, which covers the data these scripts handle). -/
def pyLower (s : String) : String :=
  String.mk (s.toList.map Char.toLower)

/-- `str.rstrip(':')`: remove all trailing colon characters. -/
def rstripColon (s : String) : String :=
  String.mk ((s.toList.reverse.dropWhile (fun c => c = ':')).reverse)

/-- `re.sub(r'\D', '', s)`: keep only decimal digits. -/
def digitsOnly (s : String) : String :=
  String.mk (s.toList.filter Char.isDigit)

/-- `re.sub(r'\s+', '', s)`: remove all whitespace characters. -/
def removeSpaces (s : String) : String :=
  String.mk (s.toList.filter (fun c => !(pySpace c)))

/-- Does the pattern occur at the head of the list? -/
def startsWithCh : List Char → List Char → Bool
  | [], _ => true
  | _ :: _, [] => false
  | a :: as, b :: bs => a = b && startsWithCh as bs

/-- Does the pattern occur anywhere in the list (Python's `in` on strings)? -/
def containsCh (pat : List Char) : List Char → Bool
  | [] => startsWithCh pat []
  | b :: bs => startsWithCh pat (b :: bs) || containsCh pat bs

/-- Python `pat in s` for strings. -/
def containsStr (s pat : String) : Bool :=
  containsCh pat.toList s.toList

/-- First-match association-list lookup, as a Python `dict` lookup over the
insertion-ordered key/value pairs (keys are unique in the tables used). -/
def tblGet (k : String) : List (String × String) → Option String
  | [] => none
  | p :: ps => if p.1 = k then some p.2 else tblGet k ps

/-- `d.get(k, "")` on an association-list record. -/
def aget (d : List (String × String)) (k : String) : String :=
  (tblGet k d).getD ""

/-- `" ".join(classes)`. -/
def joinSpace (l : List String) : String :=
  String.intercalate " " l

/-! ### SEBI script: pagination-indicator parsing

Embeds `parse_pagination_inner`, whose regex is
`(\d+)\s*to\s*(\d+)\s*of\s*(\d+)` searched case-insensitively.  Because the
literal words `to`/`of` cannot start with a digit or a whitespace character,
the greedy left-to-right scan below matches the regex engine's behaviour
exactly. -/

namespace Sebi

/-- Consume further digits of a number already begun, accumulating its value. -/
def takeDigitsAux : List Char → Nat → Nat × List Char
  | [], acc => (acc, [])
  | c :: rest, acc =>
    if c.isDigit then takeDigitsAux rest (acc * 10 + (c.toNat - 48))
    else (acc, c :: rest)

/-- `(\d+)`: consume one-or-more digits, returning their value. -/
def takeDigits : List Char → Option (Nat × List Char)
  | [] => none
  | c :: rest =>
    if c.isDigit then some (takeDigitsAux rest (c.toNat - 48))
    else none

/-- `\s*`. -/
def skipSpaces (l : List Char) : List Char :=
  l.dropWhile pySpace

/-- A case-insensitive two-letter literal word (`to` / `of`). -/
def matchWordCI (w1 w2 : Char) : List Char → Option (List Char)
  | a :: b :: rest =>
    if a.toLower = w1 && b.toLower = w2 then some rest else none
  | _ => none

/-- Try to match `(\d+)\s*to\s*(\d+)\s*of\s*(\d+)` at this position. -/
def matchTripleAt (l : List Char) : Option (Nat × Nat × Nat) :=
  match takeDigits l with
  | none => none
  | some (s, l) =>
    match matchWordCI 't' 'o' (skipSpaces l) with
    | none => none
    | some l =>
      match takeDigits (skipSpaces l) with
      | none => none
      | some (e, l) =>
        match matchWordCI 'o' 'f' (skipSpaces l) with
        | none => none
        | some l =>
          match takeDigits (skipSpaces l) with
          | none => none
          | some (t, _) => some (s, e, t)

/-- `re.search`: try each start position left to right. -/
def searchTriple : List Char → Option (Nat × Nat × Nat)
  | [] => none
  | c :: rest =>
    match matchTripleAt (c :: rest) with
    | some r => some r
    | none => searchTriple rest

/-- `parse_pagination_inner(text)`: `None`/empty text parses to nothing;
otherwise non-breaking spaces are replaced, the text is stripped and the
range regex is searched. -/
def parse_pagination_inner (text : String) : Option (Nat × Nat × Nat) :=
  if text = "" then none
  else
    searchTriple
      (stripList (text.toList.map (fun c => if c = Char.ofNat 160 then ' ' else c)))

/-- `get_total_records_and_perpage`: the indicator element may be missing
(`none`); a parsed range yields `per_page = end - start + 1`, forced to 25
when non-positive; otherwise the fallback `(1, 25)`. -/
def get_total_records_and_perpage (ind : Option String) : Nat × Nat :=
  match ind with
  | none => (1, 25)
  | some txt =>
    match parse_pagination_inner txt with
    | none => (1, 25)
    | some (s, e, t) =>
      let ppRaw : Int := (e : Int) - (s : Int) + 1
      (t, if ppRaw ≤ 0 then 25 else ppRaw.toNat)

/-- `math.ceil(a / b)` for non-negative integers with positive `b`. -/
def ceilDiv (a b : Nat) : Nat := (a + b - 1) / b

/-- `total_pages = max(1, math.ceil(total_records / per_page))`. -/
def totalPages (total pp : Nat) : Nat := max 1 (ceilDiv total pp)

/-- `expected_start = (page_num - 1) * per_page + 1`. -/
def expectedStart (pp n : Nat) : Nat := (n - 1) * pp + 1

/-- `expected_end = min(page_num * per_page, total_records)`. -/
def expectedEnd (pp total n : Nat) : Nat := min (n * pp) total

/-! ### SEBI script: card extraction and label normalization -/

/-- The fixed canonical column list `COLUMNS`. -/
def COLUMNS : List String :=
  ["Name", "Registration No.", "E-mail", "Telephone", "Fax No.", "Address",
   "Contact Person", "Correspondence Address", "Validity"]

/-- The synonym table `TITLE_TO_HEADER`, in Python insertion order. -/
def TITLE_TO_HEADER : List (String × String) :=
  [("Name", "Name"),
   ("Registration No.", "Registration No."),
   ("E-mail", "E-mail"),
   ("Telephone", "Telephone"),
   ("Fax No.", "Fax No."),
   ("Address", "Address"),
   ("Contact Person", "Contact Person"),
   ("Correspondence Address", "Correspondence Address"),
   ("Validity", "Validity"),
   ("Email", "E-mail"),
   ("Email ID", "E-mail"),
   ("Fax", "Fax No."),
   ("Registration No", "Registration No.")]

/-- `title.strip().rstrip(':').lower()`: the normalized form of a raw title
used by the fallback matching pass. -/
def normTitle (t : String) : String :=
  pyLower (rstripColon (pyStrip t))

/-- `k_t.lower().rstrip(':')`: the normalized form of a synonym-table key. -/
def normKey (k : String) : String :=
  rstripColon (pyLower k)

/-- Resolve a (stripped) raw title to a canonical column: exact
`TITLE_TO_HEADER` lookup first, then the case/colon-insensitive scan over the
table in insertion order; unresolved titles yield `none` (the field is
dropped). -/
def resolveTitleFull (t : String) : Option String :=
  match tblGet t TITLE_TO_HEADER with
  | some k => some k
  | none => (TITLE_TO_HEADER.find? (fun p => normKey p.1 == normTitle t)).map (·.2)

/-- `card_data = {h: "" for h in COLUMNS}`. -/
def emptyCard : List (String × String) :=
  COLUMNS.map (fun h => (h, ""))

/-- `card_data[key] = value` on a Python dict: replace in place if the key is
present, else append. -/
def setField (d : List (String × String)) (k v : String) : List (String × String) :=
  if d.any (fun p => p.1 == k) then
    d.map (fun p => if p.1 == k then (k, v) else p)
  else d ++ [(k, v)]

/-- One step of the per-card loop over an already-stripped `(title, value)`
pair: resolve the title and store the value; unresolved pairs do nothing. -/
def normStep (d : List (String × String)) (tv : String × String) : List (String × String) :=
  match resolveTitleFull tv.1 with
  | some key => setField d key tv.2
  | none => d

/-- The per-card loop over the already-stripped `(title, value)` pairs. -/
def normalizeFields (pairs : List (String × String)) : List (String × String) :=
  pairs.foldl normStep emptyCard

/-- One `div.card-view` sub-element: `none` when locating its title or value
element raised (the loop then continues), otherwise the raw title and value
texts. -/
abbrev CardView := Option (String × String)

/-- One `div.fixed-table-body.card-table` element: `none` when locating its
card views raised (the card is skipped), otherwise its card views. -/
abbrev SebiCard := Option (List CardView)

/-- Build `card_data` for one card: strip each view's title and value, then
run the normalization loop. -/
def processCard (views : List CardView) : List (String × String) :=
  normalizeFields
    (views.filterMap (fun ov => ov.map (fun tv => (pyStrip tv.1, pyStrip tv.2))))

/-- The canonical columns that the views of a card actually resolve to. -/
def resolvedTargets (views : List CardView) : List String :=
  views.filterMap (fun ov => ov.bind (fun tv => resolveTitleFull (pyStrip tv.1)))

/-- `card_data.get("Name") or card_data.get("Registration No.")` as a Boolean:
the card's retention test. -/
def mustHave (d : List (String × String)) : Bool :=
  aget d "Name" ≠ "" || aget d "Registration No." ≠ ""

/-- `scrape_cards_on_current_view`: one record per card, appended only when
the retention test passes. -/
def scrape_cards_on_current_view (cards : List SebiCard) : List (List (String × String)) :=
  cards.filterMap
    (fun c =>
      c.bind (fun views =>
        let d := processCard views
        if mustHave d then some d else none))

/-! ### SEBI script: page navigation and the per-letter crawl

The live session is abstracted as an environment: which JavaScript paging
function exists, which anchors are visible from a given rendered page, and
what the pagination indicator and cards of each rendered page are.  Rendered
pages are identified by their zero-based index; invoking the paging function
or clicking a matching anchor renders the requested page. -/

/-- A single-quote and double-quote string (kept out of string literals). -/
def sq : String := String.mk [Char.ofNat 39]

def dq : String := String.mk [Char.ofNat 34]

/-- The single-quoted invocation text `searchFormFpi('n', '<idx>')` embedded
in anchor hrefs. -/
def patSQ (idx : Nat) : String :=
  "searchFormFpi(" ++ sq ++ "n" ++ sq ++ ", " ++ sq ++ toString idx ++ sq ++ ")"

/-- The double-quoted variant of the same invocation text. -/
def patDQ (idx : Nat) : String :=
  "searchFormFpi(" ++ dq ++ "n" ++ dq ++ ", " ++ dq ++ toString idx ++ dq ++ ")"

/-- Abstract browser session for the SEBI crawl. -/
structure SebiEnv where
  hasPageJs : Bool
  anchorsAt : Nat → List String
  indicatorAt : Nat → Option String
  cardsAt : Nat → List SebiCard

/-- `trigger_page_zero_based`: call `searchFormFpi` when available, else click
the first pagination anchor whose href contains the invocation text for this
zero-based index; returns whether the attempt was issued, plus the rendered
page afterwards. -/
def trigger_page_zero_based (env : SebiEnv) (cur idx : Nat) : Bool × Nat :=
  if env.hasPageJs then (true, idx)
  else if (env.anchorsAt cur).any
      (fun href => containsStr href (patSQ idx) || containsStr href (patDQ idx)) then
    (true, idx)
  else (false, cur)

/-- `wait_for_expected_range`: the poll succeeds when the indicator parses and
reports the expected total and start. -/
def waitCheck (ind : Option String) (expStart total : Nat) : Bool :=
  match ind with
  | none => false
  | some txt =>
    match parse_pagination_inner txt with
    | none => false
    | some (s, _, t) => t == total && s == expStart

/-- The observable outcome of visiting one page of the per-letter loop. -/
structure SebiVisit where
  page : Nat
  triggerArg : Option Nat
  triggerOk : Bool
  expStart : Nat
  expEnd : Nat
  matched : Bool
  rows : List (List (String × String))
deriving DecidableEq

/-- One iteration of the page loop: page 1 uses the already-rendered view,
later pages attempt the trigger first; in every case the currently rendered
view is then scraped. -/
def sebiVisitPage (env : SebiEnv) (total pp cur n : Nat) : SebiVisit × Nat :=
  let s :=
    if n = 1 then (Option.none (α := Nat), true, cur)
    else
      let r := trigger_page_zero_based env cur (n - 1)
      (some (n - 1), r.1, r.2)
  let cur' := s.2.2
  let es := expectedStart pp n
  let ee := expectedEnd pp total n
  ({ page := n, triggerArg := s.1, triggerOk := s.2.1, expStart := es, expEnd := ee,
     matched := waitCheck (env.indicatorAt cur') es total,
     rows := scrape_cards_on_current_view (env.cardsAt cur') }, cur')

/-- The page loop over a list of page numbers, threading the rendered page. -/
def sebiCrawlGo (env : SebiEnv) (total pp : Nat) : List Nat → Nat → List SebiVisit
  | [], _ => []
  | n :: ns, cur =>
    let r := sebiVisitPage env total pp cur n
    r.1 :: sebiCrawlGo env total pp ns r.2

/-- `scrape_letter_with_pagination` after a successful letter trigger: read
the indicator of the initially rendered view (page index 0), derive the page
count and visit pages `1..total_pages`. -/
def scrape_letter_with_pagination (env : SebiEnv) : List SebiVisit :=
  let tp := get_total_records_and_perpage (env.indicatorAt 0)
  sebiCrawlGo env tp.1 tp.2 (List.range' 1 (totalPages tp.1 tp.2)) 0

/-- The flat list of records the letter crawl collects. -/
def sebiCollected (env : SebiEnv) : List (List (String × String)) :=
  ((scrape_letter_with_pagination env).map (·.rows)).flatten

end Sebi

/-! ### ARIA script: card extraction, deduplication, writing and the crawl -/

namespace Aria

/-- The fixed ARIA column list. -/
def ariaColumns : List String :=
  ["type", "name", "company", "mobile_no", "email", "website"]

/-- One `li.member-listgroup-item`: its icon's classes (`none` when the
`<i>` element is absent), the `h6.title` text, the `mailto:` anchor text and
the `http` anchor href, each `none` when absent. -/
structure AriaItem where
  iconClasses : Option (List String)
  titleText : Option String
  mailtoText : Option String
  httpHref : Option String
deriving DecidableEq

/-- One `div.card.member-card`. -/
structure AriaCard where
  category : Option String
  itemtitle : Option String
  items : List AriaItem
deriving DecidableEq

/-- `icon and pat in " ".join(icon.get("class") or [])`. -/
def iconHas (pat : String) (it : AriaItem) : Bool :=
  match it.iconClasses with
  | none => false
  | some cls => containsStr (joinSpace cls) pat

/-- The first list item whose icon classes contain the marker. -/
def firstIcon (pat : String) (items : List AriaItem) : Option AriaItem :=
  items.find? (iconHas pat)

/-- `get_text(strip=True)` of an optional element, defaulting to empty. -/
def textOf (o : Option String) : String :=
  match o with
  | some s => pyStrip s
  | none => ""

/-- `type`: the `.membercategory` text, stripped twice as in the source. -/
def typOf (c : AriaCard) : String := pyStrip (textOf c.category)

/-- `name`: the `.itemtitle` text. -/
def nameOf (c : AriaCard) : String := pyStrip (textOf c.itemtitle)

/-- `company`: the briefcase-marked item's `h6.title` text. -/
def companyOf (c : AriaCard) : String :=
  match firstIcon "bi-briefcase" c.items with
  | some li => textOf li.titleText
  | none => ""

/-- `mobile_no`: the phone-marked item's `h6.title` text with all internal
whitespace removed. -/
def phoneOf (c : AriaCard) : String :=
  removeSpaces
    (match firstIcon "bi-phone" c.items with
     | some li => textOf li.titleText
     | none => "")

/-- `email`: the envelope-marked item's `mailto:` anchor text, else its
`h6.title` text. -/
def emailOf (c : AriaCard) : String :=
  match firstIcon "bi-envelope" c.items with
  | some li =>
    match li.mailtoText with
    | some a => pyStrip a
    | none => textOf li.titleText
  | none => ""

/-- `website`: the globe-marked item's `http` anchor href, stripped. -/
def websiteOf (c : AriaCard) : String :=
  match firstIcon "bi-globe2" c.items with
  | some li =>
    match li.httpHref with
    | some a => pyStrip a
    | none => ""
  | none => ""

/-- The record literal appended for each card (always all six keys). -/
def recordOfCard (c : AriaCard) : List (String × String) :=
  [("type", typOf c), ("name", nameOf c), ("company", companyOf c),
   ("mobile_no", phoneOf c), ("email", emailOf c), ("website", websiteOf c)]

/-- `parse_cards_from_html`: every selected card yields one record. -/
def parse_cards_from_html (cards : List AriaCard) : List (List (String × String)) :=
  cards.map recordOfCard

/-- The composite dedup key from `main`: lower-cased email, digits-only phone
and lower-cased name. -/
def dedupKey (m : List (String × String)) : String × String × String :=
  (pyLower (aget m "email"), digitsOnly (aget m "mobile_no"), pyLower (aget m "name"))

/-- The first-seen-wins dedup loop from `main`. -/
def dedupeGo : List (List (String × String)) → List (String × String × String) →
    List (List (String × String))
  | [], _ => []
  | m :: rest, seen =>
    let k := dedupKey m
    if k ∈ seen then dedupeGo rest seen
    else m :: dedupeGo rest (k :: seen)

/-- Deduplicate, keeping the first record for each key in original order. -/
def dedupe (ms : List (List (String × String))) : List (List (String × String)) :=
  dedupeGo ms []

/-- The output artifact's state: whether the file exists, whether another
process holds it locked, and the record sequence it holds. -/
structure FS where
  present : Bool
  locked : Bool
  content : Option (List (List (String × String)))
deriving DecidableEq

/-- `write_xlsx_only`: unlinking a locked existing file raises
`PermissionError`, which is caught and reported as `False` with nothing
written; otherwise the file is (re)written with the records and `True` is
returned. -/
def write_xlsx_only (members : List (List (String × String))) (fs : FS) : Bool × FS :=
  if fs.present then
    if fs.locked then (false, fs)
    else (true, { present := true, locked := false, content := some members })
  else (true, { present := true, locked := fs.locked, content := some members })

/-- Abstract browser session for the ARIA crawl: the discovered maximum page,
whether the page link for a page can be located, whether the primary
interaction raises anyway, whether the script-forced fallback call itself
raises, and the cards rendered on each page. -/
structure AriaEnv where
  maxPage : Nat
  linkPresent : Nat → Bool
  primaryRaises : Nat → Bool
  scriptRaises : Nat → Bool
  pageCards : Nat → List AriaCard

/-- One iteration of `collect_pages_by_click`'s loop: page 1 snapshots the
already-loaded view; otherwise the primary locate-scroll-click path runs when
the link is found and nothing raises, else the script-forced fallback runs
unless the script call itself raises — the script's `if(e)` guard clicks only
when the element exists, and the current view is snapshotted regardless.
Returns the rendered page afterwards and the snapshots appended (as rendered
page indices). -/
def ariaStep (env : AriaEnv) (cur p : Nat) : Nat × List Nat :=
  if p = 1 then (cur, [cur])
  else if env.linkPresent p && !env.primaryRaises p then (p, [p])
  else if !env.scriptRaises p then
    let cur' := if env.linkPresent p then p else cur
    (cur', [cur'])
  else (cur, [])

/-- The crawl loop over the page numbers, threading the rendered page. -/
def ariaGo (env : AriaEnv) : List Nat → Nat → List Nat
  | [], _ => []
  | p :: ps, cur =>
    let r := ariaStep env cur p
    r.2 ++ ariaGo env ps r.1

/-- `collect_pages_by_click`: load the start URL (rendering page 1), then
attempt pages `1..max_page` in order, each exactly once. -/
def collect_pages_by_click (env : AriaEnv) : List Nat :=
  ariaGo env (List.range' 1 env.maxPage) 1

/-- `main`'s accumulation: parse every collected snapshot in order. -/
def ariaAllMembers (env : AriaEnv) : List (List (String × String)) :=
  ((collect_pages_by_click env).map (fun pg => parse_cards_from_html (env.pageCards pg))).flatten

end Aria

/-! ### Helper lemmas: association-list records and the normalizer -/

theorem tblGet_values_mem {k v : String} :
    ∀ {l : List (String × String)}, tblGet k l = some v → ∃ p ∈ l, p.2 = v := by
  intro l h
  induction l with
  | nil => simp [tblGet] at h
  | cons p ps ih =>
    rw [tblGet] at h
    split at h
    · exact ⟨p, List.mem_cons_self p ps, Option.some.inj h⟩
    · obtain ⟨q, hq, hv⟩ := ih h
      exact ⟨q, List.mem_cons_of_mem p hq, hv⟩

theorem table_values_subset : ∀ p ∈ Sebi.TITLE_TO_HEADER, p.2 ∈ Sebi.COLUMNS := by decide

theorem resolve_mem {t k : String} (h : Sebi.resolveTitleFull t = some k) :
    k ∈ Sebi.COLUMNS := by
  unfold Sebi.resolveTitleFull at h
  cases hg : tblGet t Sebi.TITLE_TO_HEADER with
  | some k' =>
    rw [hg] at h
    injection h with h
    obtain ⟨p, hp, hv⟩ := tblGet_values_mem hg
    exact h ▸ hv ▸ table_values_subset p hp
  | none =>
    rw [hg] at h
    obtain ⟨p, hfind, hv⟩ := Option.map_eq_some'.1 h
    exact hv ▸ table_values_subset p (List.mem_of_find?_eq_some hfind)

theorem setField_keys {d : List (String × String)} {k v : String}
    (h : k ∈ d.map Prod.fst) :
    (Sebi.setField d k v).map Prod.fst = d.map Prod.fst := by
  unfold Sebi.setField
  rw [if_pos]
  · rw [List.map_map]
    apply List.map_congr_left
    intro p _
    by_cases hpk : p.1 = k
    · simp [Function.comp, hpk]
    · simp [Function.comp, hpk]
  · obtain ⟨p, hp, hk⟩ := List.mem_map.1 h
    exact List.any_eq_true.2 ⟨p, hp, by simp [hk]⟩

theorem foldl_normStep_keys :
    ∀ (pairs : List (String × String)) (d : List (String × String)),
      d.map Prod.fst = Sebi.COLUMNS →
      (pairs.foldl Sebi.normStep d).map Prod.fst = Sebi.COLUMNS := by
  intro pairs
  induction pairs with
  | nil => intro d hd; simpa using hd
  | cons tv rest ih =>
    intro d hd
    rw [List.foldl_cons]
    apply ih
    unfold Sebi.normStep
    cases hr : Sebi.resolveTitleFull tv.1 with
    | none => exact hd
    | some key =>
      rw [setField_keys (by rw [hd]; exact resolve_mem hr)]
      exact hd

theorem emptyCard_keys : Sebi.emptyCard.map Prod.fst = Sebi.COLUMNS := by decide

theorem processCard_keys (views : List Sebi.CardView) :
    (Sebi.processCard views).map Prod.fst = Sebi.COLUMNS :=
  foldl_normStep_keys _ _ emptyCard_keys

theorem tblGet_map_ne {k k' v : String} (h : k ≠ k') :
    ∀ d : List (String × String),
      tblGet k' (d.map (fun p => if p.1 == k then (k, v) else p)) = tblGet k' d := by
  intro d
  induction d with
  | nil => rfl
  | cons p ps ih =>
    rw [List.map_cons]
    by_cases hpk : p.1 = k
    · rw [if_pos (by simp [hpk])]
      rw [tblGet, tblGet, if_neg h, if_neg (fun hh => h (hpk ▸ hh)), ih]
    · rw [if_neg (by simp [hpk])]
      rw [tblGet, tblGet, ih]

theorem tblGet_append_ne {k k' v : String} (h : k ≠ k') :
    ∀ d : List (String × String), tblGet k' (d ++ [(k, v)]) = tblGet k' d := by
  intro d
  induction d with
  | nil => simp [tblGet, h]
  | cons p ps ih =>
    rw [List.cons_append, tblGet, tblGet, ih]

theorem tblGet_setField_ne {d : List (String × String)} {k k' v : String} (h : k ≠ k') :
    tblGet k' (Sebi.setField d k v) = tblGet k' d := by
  unfold Sebi.setField
  split
  · exact tblGet_map_ne h d
  · exact tblGet_append_ne h d

theorem aget_of_all_empty {k : String} :
    ∀ {d : List (String × String)}, (∀ p ∈ d, p.2 = "") → aget d k = "" := by
  intro d hd
  induction d with
  | nil => rfl
  | cons p ps ih =>
    unfold aget tblGet
    split
    · exact hd p (List.mem_cons_self p ps)
    · exact ih (fun q hq => hd q (List.mem_cons_of_mem p hq))

theorem foldl_normStep_aget :
    ∀ (pairs : List (String × String)) (d : List (String × String)) (k : String),
      aget d k = "" →
      (∀ tv ∈ pairs, ∀ key, Sebi.resolveTitleFull tv.1 = some key → key ≠ k) →
      aget (pairs.foldl Sebi.normStep d) k = "" := by
  intro pairs
  induction pairs with
  | nil => intro d k hd _; simpa using hd
  | cons tv rest ih =>
    intro d k hd hres
    rw [List.foldl_cons]
    apply ih _ _ ?_ (fun q hq => hres q (List.mem_cons_of_mem tv hq))
    unfold Sebi.normStep
    cases hr : Sebi.resolveTitleFull tv.1 with
    | none => exact hd
    | some key =>
      unfold aget
      rw [tblGet_setField_ne (hres tv (List.mem_cons_self tv rest) key hr)]
      exact hd

/-! ### Helper lemmas: the SEBI crawl trace -/

theorem sebiVisitPage_page (env : Sebi.SebiEnv) (total pp cur n : Nat) :
    (Sebi.sebiVisitPage env total pp cur n).1.page = n := rfl

theorem sebiVisitPage_expStart (env : Sebi.SebiEnv) (total pp cur n : Nat) :
    (Sebi.sebiVisitPage env total pp cur n).1.expStart = Sebi.expectedStart pp n := rfl

theorem sebiVisitPage_expEnd (env : Sebi.SebiEnv) (total pp cur n : Nat) :
    (Sebi.sebiVisitPage env total pp cur n).1.expEnd = Sebi.expectedEnd pp total n := rfl

theorem sebiVisitPage_triggerArg (env : Sebi.SebiEnv) (total pp cur n : Nat) :
    (Sebi.sebiVisitPage env total pp cur n).1.triggerArg
      = if n = 1 then none else some (n - 1) := by
  unfold Sebi.sebiVisitPage
  by_cases hn : n = 1 <;> simp [hn]

theorem sebiVisitPage_triggerOk (env : Sebi.SebiEnv) (total pp cur n : Nat) :
    (Sebi.sebiVisitPage env total pp cur n).1.triggerOk
      = if n = 1 then true else (Sebi.trigger_page_zero_based env cur (n - 1)).1 := by
  unfold Sebi.sebiVisitPage
  by_cases hn : n = 1 <;> simp [hn]

theorem sebiVisitPage_cur (env : Sebi.SebiEnv) (total pp cur n : Nat) :
    (Sebi.sebiVisitPage env total pp cur n).2
      = if n = 1 then cur else (Sebi.trigger_page_zero_based env cur (n - 1)).2 := by
  unfold Sebi.sebiVisitPage
  by_cases hn : n = 1 <;> simp [hn]

theorem sebiVisitPage_rows (env : Sebi.SebiEnv) (total pp cur n : Nat) :
    (Sebi.sebiVisitPage env total pp cur n).1.rows
      = Sebi.scrape_cards_on_current_view
          (env.cardsAt (Sebi.sebiVisitPage env total pp cur n).2) := rfl

theorem sebiCrawlGo_map_page (env : Sebi.SebiEnv) (total pp : Nat) :
    ∀ (ns : List Nat) (cur : Nat),
      (Sebi.sebiCrawlGo env total pp ns cur).map (·.page) = ns := by
  intro ns
  induction ns with
  | nil => intro cur; rfl
  | cons n ns ih =>
    intro cur
    rw [Sebi.sebiCrawlGo, List.map_cons, sebiVisitPage_page, ih]

theorem sebiCrawlGo_fields (env : Sebi.SebiEnv) (total pp : Nat) :
    ∀ (ns : List Nat) (cur : Nat), ∀ v ∈ Sebi.sebiCrawlGo env total pp ns cur,
      v.expStart = Sebi.expectedStart pp v.page ∧
      v.expEnd = Sebi.expectedEnd pp total v.page ∧
      v.triggerArg = (if v.page = 1 then none else some (v.page - 1)) := by
  intro ns
  induction ns with
  | nil => intro cur v hv; simp [Sebi.sebiCrawlGo] at hv
  | cons n ns ih =>
    intro cur v hv
    rw [Sebi.sebiCrawlGo] at hv
    rcases List.mem_cons.1 hv with rfl | hv
    · rw [sebiVisitPage_page, sebiVisitPage_expStart, sebiVisitPage_expEnd,
        sebiVisitPage_triggerArg]
      exact ⟨rfl, rfl, rfl⟩
    · exact ih _ v hv

theorem trigger_stuck {env : Sebi.SebiEnv} {cur idx : Nat}
    (hjs : env.hasPageJs = false) (ha : env.anchorsAt cur = []) :
    Sebi.trigger_page_zero_based env cur idx = (false, cur) := by
  simp [Sebi.trigger_page_zero_based, hjs, ha]

theorem sebiCrawlGo_stuck (env : Sebi.SebiEnv) (total pp : Nat)
    (hjs : env.hasPageJs = false) (ha : ∀ s, env.anchorsAt s = []) :
    ∀ (ns : List Nat) (cur : Nat), ∀ v ∈ Sebi.sebiCrawlGo env total pp ns cur,
      v.rows = Sebi.scrape_cards_on_current_view (env.cardsAt cur) ∧
      (2 ≤ v.page → v.triggerOk = false) := by
  intro ns
  induction ns with
  | nil => intro cur v hv; simp [Sebi.sebiCrawlGo] at hv
  | cons n ns ih =>
    intro cur v hv
    have hcur : (Sebi.sebiVisitPage env total pp cur n).2 = cur := by
      rw [sebiVisitPage_cur]
      by_cases hn : n = 1
      · rw [if_pos hn]
      · rw [if_neg hn, trigger_stuck hjs (ha cur)]
    rw [Sebi.sebiCrawlGo] at hv
    rcases List.mem_cons.1 hv with rfl | hv
    · refine ⟨?_, ?_⟩
      · rw [sebiVisitPage_rows, hcur]
      · intro hp
        rw [sebiVisitPage_page] at hp
        have hn : ¬ n = 1 := by omega
        rw [sebiVisitPage_triggerOk, if_neg hn, trigger_stuck hjs (ha cur)]
    · rw [hcur] at hv
      exact ih cur v hv

/-! ### Helper lemmas: the ARIA crawl loop and substring search -/

theorem ariaStep_skip {env : Scrape.Aria.AriaEnv} {cur p : Nat}
    (hp : p ≠ 1) (hl : env.linkPresent p = false) (hs : env.scriptRaises p = true) :
    Aria.ariaStep env cur p = (cur, []) := by
  simp [Aria.ariaStep, hp, hl, hs]

theorem ariaStep_len (env : Aria.AriaEnv) (cur p : Nat) :
    (Aria.ariaStep env cur p).2.length ≤ 1 := by
  unfold Aria.ariaStep
  split
  · simp
  split
  · simp
  split
  · simp
  · simp

theorem ariaGo_len (env : Aria.AriaEnv) :
    ∀ (ps : List Nat) (cur : Nat), (Aria.ariaGo env ps cur).length ≤ ps.length := by
  intro ps
  induction ps with
  | nil => intro cur; simp [Aria.ariaGo]
  | cons p ps ih =>
    intro cur
    rw [Aria.ariaGo, List.length_append, List.length_cons]
    have h1 := ariaStep_len env cur p
    have h2 := ih (Aria.ariaStep env cur p).1
    omega

theorem startsWithCh_self_append :
    ∀ (p l : List Char), startsWithCh p (p ++ l) = true := by
  intro p
  induction p with
  | nil => intro l; rfl
  | cons c cs ih =>
    intro l
    rw [List.cons_append, startsWithCh]
    simp [ih l]

theorem containsCh_mid :
    ∀ (l₁ p l₂ : List Char), containsCh p (l₁ ++ (p ++ l₂)) = true := by
  intro l₁
  induction l₁ with
  | nil =>
    intro p l₂
    rw [List.nil_append]
    cases p with
    | nil =>
      cases l₂ with
      | nil => rfl
      | cons c cs => rw [List.nil_append, containsCh]; simp [startsWithCh]
    | cons c cs =>
      rw [List.cons_append, containsCh]
      have hsw := startsWithCh_self_append (c :: cs) l₂
      rw [List.cons_append] at hsw
      simp [hsw]
  | cons c cs ih =>
    intro p l₂
    rw [List.cons_append, containsCh]
    simp [ih p l₂]

theorem containsStr_mid (a mid b : String) :
    containsStr (a ++ (mid ++ b)) mid = true := by
  unfold containsStr
  have hdata : (a ++ (mid ++ b)).data = a.data ++ (mid.data ++ b.data) := by
    simp [String.data_append]
  show containsCh mid.data (a ++ (mid ++ b)).data = true
  rw [hdata]
  exact containsCh_mid a.data mid.data b.data

/-! ### Claim C1: pagination arithmetic of the indicator-driven driver -/

/-- Claim C1 (amended): for every indicator text parsed as `(start, end,
total)` with `start ≤ end` and `total ≥ 1`, the driver computes
`perPage = end - start + 1` and `totalPages = ceil(total / perPage)`, visits
exactly the pages `1..totalPages`, and verifies page `n` against the expected
range `(n-1)*perPage + 1 .. min(n*perPage, total)`; in particular
`"1 to 25 of 136 records"` yields `perPage = 25`, `totalPages = 6` and a
final expected range of `126..136`.  (When the parsed range is degenerate the
code instead forces `perPage = 25`, and `totalPages` is clamped to at least
one — see the counterexample.) -/
theorem C1_pagination_arithmetic (txt : String) (s e t : Nat)
    (hp : Sebi.parse_pagination_inner txt = some (s, e, t))
    (hse : s ≤ e) (ht : 1 ≤ t) :
    Sebi.get_total_records_and_perpage (some txt) = (t, e - s + 1) ∧
    Sebi.totalPages t (e - s + 1) = Sebi.ceilDiv t (e - s + 1) ∧
    (∀ env : Sebi.SebiEnv, env.indicatorAt 0 = some txt →
      (Sebi.scrape_letter_with_pagination env).map (·.page)
          = List.range' 1 (Sebi.totalPages t (e - s + 1)) ∧
      ∀ v ∈ Sebi.scrape_letter_with_pagination env,
        v.expStart = (v.page - 1) * (e - s + 1) + 1 ∧
        v.expEnd = min (v.page * (e - s + 1)) t) ∧
    Sebi.parse_pagination_inner "1 to 25 of 136 records" = some (1, 25, 136) ∧
    Sebi.get_total_records_and_perpage (some "1 to 25 of 136 records") = (136, 25) ∧
    Sebi.totalPages 136 25 = 6 ∧
    Sebi.expectedStart 25 6 = 126 ∧
    Sebi.expectedEnd 25 136 6 = 136 := by
  have hgtr : Sebi.get_total_records_and_perpage (some txt) = (t, e - s + 1) := by
    simp only [Sebi.get_total_records_and_perpage, hp]
    have hpos : ¬ ((e : Int) - (s : Int) + 1 ≤ 0) := by omega
    rw [if_neg hpos]
    have htn : ((e : Int) - (s : Int) + 1).toNat = e - s + 1 := by omega
    rw [htn]
  have hceil : 1 ≤ Sebi.ceilDiv t (e - s + 1) := by
    unfold Sebi.ceilDiv
    rw [Nat.le_div_iff_mul_le (by omega)]
    omega
  have htp : Sebi.totalPages t (e - s + 1) = Sebi.ceilDiv t (e - s + 1) :=
    Nat.max_eq_right hceil
  refine ⟨hgtr, htp, ?_, by decide, by decide, by decide, by decide, by decide⟩
  intro env henv
  have hsc : Sebi.scrape_letter_with_pagination env
      = Sebi.sebiCrawlGo env t (e - s + 1)
          (List.range' 1 (Sebi.totalPages t (e - s + 1))) 0 := by
    simp only [Sebi.scrape_letter_with_pagination, henv, hgtr]
  constructor
  · rw [hsc, sebiCrawlGo_map_page]
  · intro v hv
    rw [hsc] at hv
    obtain ⟨h1, h2, _⟩ := sebiCrawlGo_fields env t (e - s + 1) _ 0 v hv
    exact ⟨h1, h2⟩

/-- Witness for C1 at the spec's own example. -/
theorem C1_pagination_arithmetic_witness :
    Sebi.parse_pagination_inner "1 to 25 of 136 records" = some (1, 25, 136) ∧
    (1 : Nat) ≤ 25 ∧ (1 : Nat) ≤ 136 ∧
    Sebi.get_total_records_and_perpage (some "1 to 25 of 136 records") = (136, 25) :=
  ⟨by decide, by decide, by decide,
    (C1_pagination_arithmetic "1 to 25 of 136 records" 1 25 136
      (by decide) (by decide) (by decide)).1⟩

/-- Counterexample to C1 as stated: `"5 to 2 of 0 records"` parses
successfully to `(5, 2, 0)`, but the driver's `perPage` is the forced
fallback 25 rather than `end - start + 1 = -2`, and its page count is the
clamped 1 rather than `ceil(0 / 25) = 0`. -/
theorem C1_counterexample :
    Sebi.parse_pagination_inner "5 to 2 of 0 records" = some (5, 2, 0) ∧
    Sebi.get_total_records_and_perpage (some "5 to 2 of 0 records") = (0, 25) ∧
    ((2 : Int) - 5 + 1 ≠ 25) ∧
    Sebi.totalPages 0 25 = 1 ∧
    Sebi.ceilDiv 0 25 = 0 := by decide

/-! ### Claim C2: failure policy for a page whose trigger fails -/

/-- A three-page ARIA environment whose page-2 link is missing and whose
script fallback raises for page 2. -/
def env3 : Aria.AriaEnv :=
  { maxPage := 3
    linkPresent := fun p => p != 2
    primaryRaises := fun _ => false
    scriptRaises := fun p => p == 2
    pageCards := fun p => [{ category := none, itemtitle := some (toString p), items := [] }] }

/-- A SEBI environment whose paging function is unavailable and whose views
contain no pagination anchors: every page trigger fails, while the rendered
view always shows the same single card. -/
def envC2 : Sebi.SebiEnv :=
  { hasPageJs := false
    anchorsAt := fun _ => []
    indicatorAt := fun _ => some "1 to 1 of 2 records"
    cardsAt := fun _ => [some [some ("Name", "X")]] }

/-- Claim C2 (amended): for the click-driven source, when both the primary
interaction and the script fallback raise for page `p`, no snapshot (hence no
records) is contributed for page `p`, the crawl continues with the next page,
and each page is attempted at most once — a 3-page crawl whose page-2 trigger
fails yields exactly the records of pages 1 and 3.  For the indicator-driven
source, a failed trigger is only logged: the currently rendered (stale) view
is still scraped for page `p`. -/
theorem C2_failed_page_policy :
    (∀ (env : Aria.AriaEnv) (cur p : Nat), 2 ≤ p → env.linkPresent p = false →
        env.scriptRaises p = true → Aria.ariaStep env cur p = (cur, [])) ∧
    (∀ env : Aria.AriaEnv, (Aria.collect_pages_by_click env).length ≤ env.maxPage) ∧
    Aria.collect_pages_by_click env3 = [1, 3] ∧
    Aria.ariaAllMembers env3
      = Aria.parse_cards_from_html (env3.pageCards 1)
          ++ Aria.parse_cards_from_html (env3.pageCards 3) ∧
    (∀ env : Sebi.SebiEnv, env.hasPageJs = false → (∀ s, env.anchorsAt s = []) →
      ∀ v ∈ Sebi.scrape_letter_with_pagination env,
        v.rows = Sebi.scrape_cards_on_current_view (env.cardsAt 0) ∧
        (2 ≤ v.page → v.triggerOk = false)) := by
  refine ⟨?_, ?_, by decide, by decide, ?_⟩
  · intro env cur p hp hl hs
    exact ariaStep_skip (by omega) hl hs
  · intro env
    unfold Aria.collect_pages_by_click
    have h := ariaGo_len env (List.range' 1 env.maxPage) 1
    simpa using h
  · intro env hjs ha v hv
    unfold Sebi.scrape_letter_with_pagination at hv
    exact sebiCrawlGo_stuck env _ _ hjs ha _ 0 v hv

/-- Witness for C2 at the failing page of `env3`. -/
theorem C2_failed_page_policy_witness :
    (2 : Nat) ≤ 2 ∧ env3.linkPresent 2 = false ∧ env3.scriptRaises 2 = true ∧
    Aria.ariaStep env3 5 2 = (5, []) :=
  ⟨by decide, by decide, by decide,
    C2_failed_page_policy.1 env3 5 2 (by decide) (by decide) (by decide)⟩

/-- Counterexample to C2 as stated: in `envC2` the page-2 trigger fails with
all its fallbacks, yet the crawl still scrapes the stale view for page 2 and
includes its record, collecting two records instead of skipping page 2. -/
theorem C2_counterexample :
    (Sebi.scrape_letter_with_pagination envC2).map (fun v => (v.page, v.triggerOk, v.rows.length))
      = [(1, true, 1), (2, false, 1)] ∧
    (Sebi.sebiCollected envC2).length = 2 := by decide

/-! ### Claim C3: card retention policy of the extractors -/

/-- An ARIA card with no category, no title and no list items: every one of
its fields extracts to the empty string. -/
def emptyAriaCard : Aria.AriaCard :=
  { category := none, itemtitle := none, items := [] }

/-- Claim C3 (amended): the two extractors have different retention policies.
The indicator-driven extractor retains a card exactly when its `Name` or its
`Registration No.` field is non-empty; the click-driven extractor retains
every parsed card unconditionally, with no must-have field. -/
theorem C3_retention_policy :
    (∀ cards : List Aria.AriaCard,
        (Aria.parse_cards_from_html cards).length = cards.length) ∧
    (∀ (cards : List Sebi.SebiCard) (r : List (String × String)),
        r ∈ Sebi.scrape_cards_on_current_view cards ↔
          ∃ views, some views ∈ cards ∧ r = Sebi.processCard views ∧
            Sebi.mustHave r = true) := by
  constructor
  · intro cards
    simp [Aria.parse_cards_from_html]
  · intro cards r
    unfold Sebi.scrape_cards_on_current_view
    rw [List.mem_filterMap]
    constructor
    · rintro ⟨c, hc, hf⟩
      cases c with
      | none => simp at hf
      | some views =>
        rw [Option.some_bind] at hf
        by_cases hm : Sebi.mustHave (Sebi.processCard views) = true
        · rw [if_pos hm] at hf
          have hr := Option.some.inj hf
          exact ⟨views, hc, hr.symm, hr ▸ hm⟩
        · rw [if_neg hm] at hf
          exact absurd hf (by simp)
    · rintro ⟨views, hv, rfl, hm⟩
      exact ⟨some views, hv, by simp [hm]⟩

/-- Witness for C3 on a concrete card list: the all-empty card is counted. -/
theorem C3_retention_policy_witness :
    (Aria.parse_cards_from_html [emptyAriaCard]).length = [emptyAriaCard].length :=
  C3_retention_policy.1 [emptyAriaCard]

/-- Counterexample to C3 as stated: a click-driven card all of whose fields
(including any candidate must-have field) resolve to the empty string is
still retained in the extractor's output. -/
theorem C3_counterexample :
    Aria.parse_cards_from_html [emptyAriaCard]
      = [[("type", ""), ("name", ""), ("company", ""),
          ("mobile_no", ""), ("email", ""), ("website", "")]] := by decide

/-! ### Claim C4: the composite-key deduplicator -/

/-- The record literal produced by the ARIA extractor, with explicit field
values. -/
def mkAriaRec (t n c p e w : String) : List (String × String) :=
  [("type", t), ("name", n), ("company", c), ("mobile_no", p), ("email", e), ("website", w)]

/-- Claim C4 (amended): the deduplicator's key lower-cases the email but does
not strip whitespace; for every pair of records whose lower-cased emails are
exactly equal, whose phones have identical digit sequences and whose names
differ only in letter case, both records get the same key and only the
first-seen one is kept.  Emails that differ by a trailing space (the claim's
`"A@x.com"` versus `"a@x.com "`) get different keys — see the
counterexample. -/
theorem C4_dedup_composite_key (t1 n1 c1 p1 e1 w1 t2 n2 c2 p2 e2 w2 : String)
    (he : pyLower e1 = pyLower e2)
    (hp : digitsOnly p1 = digitsOnly p2)
    (hn : pyLower n1 = pyLower n2) :
    Aria.dedupe [mkAriaRec t1 n1 c1 p1 e1 w1, mkAriaRec t2 n2 c2 p2 e2 w2]
      = [mkAriaRec t1 n1 c1 p1 e1 w1] := by
  have hkey : Aria.dedupKey (mkAriaRec t2 n2 c2 p2 e2 w2)
      = Aria.dedupKey (mkAriaRec t1 n1 c1 p1 e1 w1) := by
    show (pyLower e2, digitsOnly p2, pyLower n2) = (pyLower e1, digitsOnly p1, pyLower n1)
    rw [he, hp, hn]
  show Aria.dedupeGo [mkAriaRec t1 n1 c1 p1 e1 w1, mkAriaRec t2 n2 c2 p2 e2 w2] [] = _
  rw [Aria.dedupeGo]
  rw [if_neg (List.not_mem_nil _)]
  rw [Aria.dedupeGo]
  rw [if_pos (by rw [hkey]; exact List.mem_cons_self _ _)]
  rw [Aria.dedupeGo]

/-- Witness for C4: the same pair with the trailing space removed is indeed
collapsed to the first record. -/
theorem C4_dedup_composite_key_witness :
    pyLower "A@x.com" = pyLower "a@x.com" ∧
    digitsOnly "9 87" = digitsOnly "98 7" ∧
    pyLower "Bob" = pyLower "BOB" ∧
    Aria.dedupe [mkAriaRec "t" "Bob" "c" "9 87" "A@x.com" "w",
                 mkAriaRec "u" "BOB" "d" "98 7" "a@x.com" "v"]
      = [mkAriaRec "t" "Bob" "c" "9 87" "A@x.com" "w"] :=
  ⟨by decide, by decide, by decide,
    C4_dedup_composite_key "t" "Bob" "c" "9 87" "A@x.com" "w"
      "u" "BOB" "d" "98 7" "a@x.com" "v" (by decide) (by decide) (by decide)⟩

/-- Counterexample to C4 as stated: with emails `"A@x.com"` and `"a@x.com "`
(trailing space), identical phone digits and case-differing names, the keys
differ — the key is not whitespace-normalized — and both records are kept. -/
theorem C4_counterexample :
    Aria.dedupKey (mkAriaRec "t" "Bob" "c" "9 87" "A@x.com" "w")
        ≠ Aria.dedupKey (mkAriaRec "u" "BOB" "d" "98 7" "a@x.com " "v") ∧
    Aria.dedupe [mkAriaRec "t" "Bob" "c" "9 87" "A@x.com" "w",
                 mkAriaRec "u" "BOB" "d" "98 7" "a@x.com " "v"]
      = [mkAriaRec "t" "Bob" "c" "9 87" "A@x.com" "w",
         mkAriaRec "u" "BOB" "d" "98 7" "a@x.com " "v"] := by decide

/-! ### Claim C5: the fixed canonical schema of emitted records -/

theorem typOf_none {c : Aria.AriaCard} (h : c.category = none) : Aria.typOf c = "" := by
  unfold Aria.typOf Aria.textOf
  rw [h]
  decide

theorem nameOf_none {c : Aria.AriaCard} (h : c.itemtitle = none) : Aria.nameOf c = "" := by
  unfold Aria.nameOf Aria.textOf
  rw [h]
  decide

theorem companyOf_none {c : Aria.AriaCard}
    (h : Aria.firstIcon "bi-briefcase" c.items = none) : Aria.companyOf c = "" := by
  unfold Aria.companyOf
  rw [h]

theorem phoneOf_none {c : Aria.AriaCard}
    (h : Aria.firstIcon "bi-phone" c.items = none) : Aria.phoneOf c = "" := by
  unfold Aria.phoneOf
  rw [h]
  decide

theorem emailOf_none {c : Aria.AriaCard}
    (h : Aria.firstIcon "bi-envelope" c.items = none) : Aria.emailOf c = "" := by
  unfold Aria.emailOf
  rw [h]

theorem websiteOf_none {c : Aria.AriaCard}
    (h : Aria.firstIcon "bi-globe2" c.items = none) : Aria.websiteOf c = "" := by
  unfold Aria.websiteOf
  rw [h]

/-- Claim C5 (confirmed): every record either extractor emits carries exactly
its source's canonical key list — nine columns for the indicator-driven
source, six for the click-driven one — independently of which fields the card
provided, and a field whose marker or resolvable labeled sub-item is absent
holds the empty string. -/
theorem C5_fixed_schema :
    (∀ (cards : List Sebi.SebiCard) (r : List (String × String)),
        r ∈ Sebi.scrape_cards_on_current_view cards → r.map Prod.fst = Sebi.COLUMNS) ∧
    (∀ (cards : List Aria.AriaCard) (r : List (String × String)),
        r ∈ Aria.parse_cards_from_html cards → r.map Prod.fst = Aria.ariaColumns) ∧
    (∀ (views : List Sebi.CardView) (k : String),
        (∀ key ∈ Sebi.resolvedTargets views, key ≠ k) →
        aget (Sebi.processCard views) k = "") ∧
    (∀ c : Aria.AriaCard, c.category = none → aget (Aria.recordOfCard c) "type" = "") ∧
    (∀ c : Aria.AriaCard, c.itemtitle = none → aget (Aria.recordOfCard c) "name" = "") ∧
    (∀ c : Aria.AriaCard, Aria.firstIcon "bi-briefcase" c.items = none →
        aget (Aria.recordOfCard c) "company" = "") ∧
    (∀ c : Aria.AriaCard, Aria.firstIcon "bi-phone" c.items = none →
        aget (Aria.recordOfCard c) "mobile_no" = "") ∧
    (∀ c : Aria.AriaCard, Aria.firstIcon "bi-envelope" c.items = none →
        aget (Aria.recordOfCard c) "email" = "") ∧
    (∀ c : Aria.AriaCard, Aria.firstIcon "bi-globe2" c.items = none →
        aget (Aria.recordOfCard c) "website" = "") := by
  refine ⟨?_, ?_, ?_, ?_, ?_, ?_, ?_, ?_, ?_⟩
  · intro cards r hr
    obtain ⟨c, _, hf⟩ := List.mem_filterMap.1 hr
    cases c with
    | none => simp at hf
    | some views =>
      rw [Option.some_bind] at hf
      by_cases hm : Sebi.mustHave (Sebi.processCard views) = true
      · rw [if_pos hm] at hf
        rw [← Option.some.inj hf]
        exact processCard_keys views
      · rw [if_neg hm] at hf
        exact absurd hf (by simp)
  · intro cards r hr
    obtain ⟨c, _, rfl⟩ := List.mem_map.1 hr
    rfl
  · intro views k hk
    unfold Sebi.processCard
    apply foldl_normStep_aget
    · exact aget_of_all_empty (by decide)
    · intro tv htv key hkey
      obtain ⟨ov, hov, hmap⟩ := List.mem_filterMap.1 htv
      cases ov with
      | none => simp at hmap
      | some q =>
        have htveq : (pyStrip q.1, pyStrip q.2) = tv := by
          simpa using hmap
        apply hk
        refine List.mem_filterMap.2 ⟨some q, hov, ?_⟩
        rw [Option.some_bind]
        rw [← htveq] at hkey
        exact hkey
  · intro c hc
    show Aria.typOf c = ""
    exact typOf_none hc
  · intro c hc
    show Aria.nameOf c = ""
    exact nameOf_none hc
  · intro c hc
    show Aria.companyOf c = ""
    exact companyOf_none hc
  · intro c hc
    show Aria.phoneOf c = ""
    exact phoneOf_none hc
  · intro c hc
    show Aria.emailOf c = ""
    exact emailOf_none hc
  · intro c hc
    show Aria.websiteOf c = ""
    exact websiteOf_none hc

/-- Witness for C5: the record of a card with no resolvable views keeps all
columns, with empty values. -/
theorem C5_fixed_schema_witness :
    aget (Sebi.processCard []) "Name" = "" ∧
    (Sebi.processCard []).map Prod.fst = Sebi.COLUMNS :=
  ⟨C5_fixed_schema.2.2.1 [] "Name" (by simp [Sebi.resolvedTargets]),
    processCard_keys []⟩

/-! ### Claim C6: zero-based page indices in the paging trigger -/

theorem str_append_assoc (a b c : String) : a ++ b ++ c = a ++ (b ++ c) := by
  apply String.ext
  simp [String.data_append]

/-- An environment whose paging function is available and which shows
`"1 to 2 of 4 records"` on the initial view (so the crawl computes two
pages). -/
def envC6 : Sebi.SebiEnv :=
  { hasPageJs := true
    anchorsAt := fun _ => []
    indicatorAt := fun s => if s = 0 then some "1 to 2 of 4 records" else none
    cardsAt := fun _ => [] }

/-- The visit that `envC6`'s crawl makes to page 2. -/
def visitC6 : Sebi.SebiVisit :=
  { page := 2, triggerArg := some 1, triggerOk := true, expStart := 3, expEnd := 4,
    matched := false, rows := [] }

/-- Claim C6 (confirmed): for every page `n > 1` the indicator-driven driver
passes the zero-based index `n - 1` to the paging trigger; with the paging
function unavailable, the trigger succeeds exactly when some anchor's href
contains the invocation text for that same zero-based index, and both
invocation-text patterns literally contain the decimal digits of the
zero-based index. -/
theorem C6_zero_based_paging :
    (∀ env : Sebi.SebiEnv, ∀ v ∈ Sebi.scrape_letter_with_pagination env,
        2 ≤ v.page → v.triggerArg = some (v.page - 1)) ∧
    (∀ (env : Sebi.SebiEnv) (cur idx : Nat), env.hasPageJs = false →
        ((Sebi.trigger_page_zero_based env cur idx).1 = true ↔
          ∃ href ∈ env.anchorsAt cur,
            (containsStr href (Sebi.patSQ idx) || containsStr href (Sebi.patDQ idx)) = true)) ∧
    (∀ idx : Nat, containsStr (Sebi.patSQ idx) (toString idx) = true ∧
        containsStr (Sebi.patDQ idx) (toString idx) = true) := by
  refine ⟨?_, ?_, ?_⟩
  · intro env v hv hp
    unfold Sebi.scrape_letter_with_pagination at hv
    obtain ⟨-, -, h3⟩ := sebiCrawlGo_fields env _ _ _ 0 v hv
    rw [h3, if_neg (by omega)]
  · intro env cur idx hjs
    have h1 : (Sebi.trigger_page_zero_based env cur idx).1
        = (env.anchorsAt cur).any
            (fun href => containsStr href (Sebi.patSQ idx) || containsStr href (Sebi.patDQ idx)) := by
      unfold Sebi.trigger_page_zero_based
      rw [if_neg (by simp [hjs])]
      by_cases hany : (env.anchorsAt cur).any
          (fun href => containsStr href (Sebi.patSQ idx) || containsStr href (Sebi.patDQ idx)) = true
      · rw [if_pos hany, hany]
      · rw [if_neg hany]
        rw [Bool.not_eq_true] at hany
        rw [hany]
    rw [h1, List.any_eq_true]
  · intro idx
    constructor
    · have hsq : Sebi.patSQ idx
          = ("searchFormFpi(" ++ Sebi.sq ++ "n" ++ Sebi.sq ++ ", " ++ Sebi.sq)
              ++ (toString idx ++ (Sebi.sq ++ ")")) := by
        simp [Sebi.patSQ, str_append_assoc]
      rw [hsq]
      exact containsStr_mid _ _ _
    · have hdq : Sebi.patDQ idx
          = ("searchFormFpi(" ++ Sebi.dq ++ "n" ++ Sebi.dq ++ ", " ++ Sebi.dq)
              ++ (toString idx ++ (Sebi.dq ++ ")")) := by
        simp [Sebi.patDQ, str_append_assoc]
      rw [hdq]
      exact containsStr_mid _ _ _

/-- Witness for C6: in `envC6` the page-2 visit carries the zero-based
trigger argument 1. -/
theorem C6_zero_based_paging_witness :
    visitC6 ∈ Sebi.scrape_letter_with_pagination envC6 ∧
    (2 : Nat) ≤ visitC6.page ∧ visitC6.triggerArg = some 1 :=
  ⟨by decide, by decide,
    C6_zero_based_paging.1 envC6 visitC6 (by decide) (by decide)⟩

/-! ### Claim C7: the record normalizer is idempotent on canonical labels -/

/-- Claim C7 (confirmed): the synonym table is the identity on every
canonical column name; the alternate labels `Email`, `Email ID` and `Fax` map
onto their canonical columns; a case- and trailing-colon-insensitive match is
applied when the exact lookup fails; labels resolving to no column are
dropped; and running the normalization loop over an already-canonical record
reproduces it unchanged. -/
theorem C7_normalizer_idempotent :
    (∀ c ∈ Sebi.COLUMNS, Sebi.resolveTitleFull c = some c) ∧
    Sebi.resolveTitleFull "Email" = some "E-mail" ∧
    Sebi.resolveTitleFull "Email ID" = some "E-mail" ∧
    Sebi.resolveTitleFull "Fax" = some "Fax No." ∧
    Sebi.resolveTitleFull "EMAIL:" = some "E-mail" ∧
    Sebi.resolveTitleFull "Unrelated Label" = none ∧
    (∀ v1 v2 v3 v4 v5 v6 v7 v8 v9 : String,
      Sebi.normalizeFields
        [("Name", v1), ("Registration No.", v2), ("E-mail", v3), ("Telephone", v4),
         ("Fax No.", v5), ("Address", v6), ("Contact Person", v7),
         ("Correspondence Address", v8), ("Validity", v9)]
        = [("Name", v1), ("Registration No.", v2), ("E-mail", v3), ("Telephone", v4),
           ("Fax No.", v5), ("Address", v6), ("Contact Person", v7),
           ("Correspondence Address", v8), ("Validity", v9)]) := by
  refine ⟨?_, by decide, by decide, by decide, by decide, by decide, ?_⟩
  · intro c hc
    fin_cases hc <;> decide
  · intro v1 v2 v3 v4 v5 v6 v7 v8 v9
    simp [Sebi.normalizeFields, Sebi.normStep, Sebi.resolveTitleFull, tblGet,
      Sebi.TITLE_TO_HEADER, Sebi.setField, Sebi.emptyCard, Sebi.COLUMNS, List.foldl]

/-- Witness for C7 at a canonical column. -/
theorem C7_normalizer_idempotent_witness :
    "Name" ∈ Sebi.COLUMNS ∧ Sebi.resolveTitleFull "Name" = some "Name" :=
  ⟨by decide, C7_normalizer_idempotent.1 "Name" (by decide)⟩

/-! ### Claim C8: locked destination aborts the write step -/

/-- Claim C8 (confirmed): when the output artifact exists and is locked by
another process, the write step returns the failure indicator `False` (the
caught `PermissionError` does not escape), writes nothing, and leaves the
artifact exactly as it was; the in-memory record sequence is not consumed. -/
theorem C8_locked_destination (members : List (List (String × String))) (fs : Aria.FS)
    (hp : fs.present = true) (hl : fs.locked = true) :
    Aria.write_xlsx_only members fs = (false, fs) := by
  simp [Aria.write_xlsx_only, hp, hl]

/-- A concrete locked artifact. -/
def fsLockedW : Aria.FS := { present := true, locked := true, content := some [] }

/-- Witness for C8. -/
theorem C8_locked_destination_witness :
    fsLockedW.present = true ∧ fsLockedW.locked = true ∧
    Aria.write_xlsx_only [] fsLockedW = (false, fsLockedW) :=
  ⟨rfl, rfl, C8_locked_destination [] fsLockedW rfl rfl⟩

/-! ### Claim C9: page-count discovery is total and positive -/

/-- Claim C9 (confirmed): discovery always yields `per_page ≥ 1` and
`total_pages ≥ 1`; a missing or unparseable indicator falls back to
`(1, 25)`; a non-positive parsed range forces `per_page = 25`; and with a
missing indicator the crawl visits exactly one page. -/
theorem C9_discovery_total (ind : Option String) :
    1 ≤ (Sebi.get_total_records_and_perpage ind).2 ∧
    1 ≤ Sebi.totalPages (Sebi.get_total_records_and_perpage ind).1
          (Sebi.get_total_records_and_perpage ind).2 ∧
    Sebi.get_total_records_and_perpage none = (1, 25) ∧
    (∀ txt, Sebi.parse_pagination_inner txt = none →
        Sebi.get_total_records_and_perpage (some txt) = (1, 25)) ∧
    (∀ txt s e t, Sebi.parse_pagination_inner txt = some (s, e, t) →
        (e : Int) - (s : Int) + 1 ≤ 0 →
        (Sebi.get_total_records_and_perpage (some txt)).2 = 25) ∧
    (∀ env : Sebi.SebiEnv, env.indicatorAt 0 = none →
        (Sebi.scrape_letter_with_pagination env).map (·.page) = [1]) := by
  refine ⟨?_, le_max_left 1 _, rfl, ?_, ?_, ?_⟩
  · cases ind with
    | none => decide
    | some txt =>
      cases hp : Sebi.parse_pagination_inner txt with
      | none => simp [Sebi.get_total_records_and_perpage, hp]
      | some trip =>
        obtain ⟨s, e, t⟩ := trip
        simp only [Sebi.get_total_records_and_perpage, hp]
        split
        · decide
        · rename_i hpos
          omega
  · intro txt hp
    simp [Sebi.get_total_records_and_perpage, hp]
  · intro txt s e t hp hle
    simp only [Sebi.get_total_records_and_perpage, hp]
    rw [if_pos hle]
  · intro env henv
    have hsc : Sebi.scrape_letter_with_pagination env
        = Sebi.sebiCrawlGo env 1 25 (List.range' 1 (Sebi.totalPages 1 25)) 0 := by
      simp only [Sebi.scrape_letter_with_pagination]
      rw [henv]
      rfl
    rw [hsc, sebiCrawlGo_map_page]
    decide

/-- Witness for C9 at an unparseable indicator text. -/
theorem C9_discovery_total_witness :
    Sebi.parse_pagination_inner "no range shown" = none ∧
    Sebi.get_total_records_and_perpage (some "no range shown") = (1, 25) ∧
    1 ≤ (Sebi.get_total_records_and_perpage (some "no range shown")).2 :=
  ⟨by decide,
    (C9_discovery_total (some "no range shown")).2.2.2.1 "no range shown" (by decide),
    (C9_discovery_total (some "no range shown")).1⟩

/-! ### Claim C10: the script-forced fallback snapshots the current view -/

/-- A two-page environment whose page-2 link does not exist while the script
call itself succeeds. -/
def envC10 : Aria.AriaEnv :=
  { maxPage := 2
    linkPresent := fun p => p == 1
    primaryRaises := fun _ => false
    scriptRaises := fun _ => false
    pageCards := fun _ => [] }

/-- Claim C10 (confirmed): when the primary lookup for page `p` fails and the
script-forced fallback call does not raise, the navigation counts as issued
and a snapshot of the still-current view is appended even though no element
matched page `p` — a missing page link yields a duplicate of the previous
page rather than a skipped page, as in `envC10`, whose crawl collects the
page-1 view twice. -/
theorem C10_fallback_snapshot :
    (∀ (env : Aria.AriaEnv) (cur p : Nat), p ≠ 1 → env.linkPresent p = false →
        env.scriptRaises p = false → Aria.ariaStep env cur p = (cur, [cur])) ∧
    Aria.collect_pages_by_click envC10 = [1, 1] := by
  constructor
  · intro env cur p hp hl hs
    simp [Aria.ariaStep, hp, hl, hs]
  · decide

/-- Witness for C10. -/
theorem C10_fallback_snapshot_witness :
    envC10.linkPresent 2 = false ∧ envC10.scriptRaises 2 = false ∧
    Aria.ariaStep envC10 7 2 = (7, [7]) :=
  ⟨rfl, rfl, C10_fallback_snapshot.1 envC10 7 2 (by decide) rfl rfl⟩

end Scrape
